import Mathlib

/-!
Verification development for the call-performance-dashboard repository.

The JavaScript sources are shallowly embedded: JS values that occur in CSV
records are modelled by `JSValue`, records (plain JS objects of string keys)
by association lists, JS `Date` objects by a normalized civil date `JSDate`
(time-of-day and timezone are not tracked: no verified claim depends on
them), and JS numbers by `ℚ` (exact arithmetic; the sources never produce
`NaN`/`Infinity` on the paths verified here because every division is
guarded, which is itself one of the verified claims).

Embedded modules, with the source location of each copy noted inline:
* `utils.js` (`cleanNumber`, `parseDate` second copy, `normalizeHeader`,
  `isAbandoned`, `isConnectedCall`),
* `config.js` first copy (`CONFIG.fieldMappings`, `getFieldMapping`,
  `CONFIG.statusPatterns`),
* `data-loader.js` first copy (namespace `DL`): `processRow`, `isValidRow`,
  `processData`, `filterByDateRange`, `getData`, `findBestMatch`,
* the `outbound_connectrate` iteration of the loader (namespace `DL6`,
  from the unnamed source file part_006) and the total-row-aware validator
  iteration (namespace `DL7`, from part_007),
* `renderers.js` (namespace `R`): `PageRenderer.avg`,
  `PageRenderer.calculateKPIs`.
-/

/-- A JS `Date` reduced to its civil components (local time-of-day is not
tracked).  `month` is 1-based (January = 1), unlike the 0-based month index
taken by the JS `Date` constructor, which is modelled by `mkJSDate`. -/
structure JSDate where
  year : Int
  month : Int
  day : Int
deriving DecidableEq, Repr

/-- A JS value as it occurs in a CSV record object: `undefined` (a missing
property), a string, a number, a boolean, or a `Date`. -/
inductive JSValue where
  | undef : JSValue
  | str : String → JSValue
  | num : ℚ → JSValue
  | bool : Bool → JSValue
  | date : JSDate → JSValue
deriving DecidableEq, Repr

/-- A JS record object: association list of property name to value.
Lookup takes the first binding; `setV` replaces in place, so objects built
by the embedded code keep JS object semantics. -/
abbrev Rec := List (String × JSValue)

/-- Property read `r[k]`: `undefined` when the key is absent. -/
def getV (r : Rec) (k : String) : JSValue :=
  match r.find? (fun p => p.1 == k) with
  | some p => p.2
  | none => JSValue.undef

/-- Property write `r[k] = v` (replace in place, append if new). -/
def setV (r : Rec) (k : String) (v : JSValue) : Rec :=
  if (List.find? (fun p => p.1 == k) r).isSome then
    r.map (fun p => if p.1 == k then (k, v) else p)
  else r ++ [(k, v)]

/-- `Object.keys(r)`. -/
def keysOf (r : Rec) : List String := r.map (fun p => p.1)

/-- `Object.values(r)`. -/
def valuesOf (r : Rec) : List JSValue := r.map (fun p => p.2)

/-- ASCII whitespace, standing for the whitespace class of JS `trim`. -/
def isWS (c : Char) : Bool := c = ' ' ∨ c = '\t' ∨ c = '\n' ∨ c = '\r'

/-- JS `String.prototype.trim` on a character list. -/
def jsTrim (l : List Char) : List Char :=
  ((l.dropWhile isWS).reverse.dropWhile isWS).reverse

/-- Digit test used by every numeric regex class `\d`. -/
def isDig (c : Char) : Bool := '0' ≤ c ∧ c ≤ '9'

/-- Numeric value of a digit string (empty list gives 0). -/
def digitsToNat (l : List Char) : ℕ :=
  l.foldl (fun n c => n * 10 + (c.toNat - '0'.toNat)) 0

/-- JS `String.prototype.split(sep)` for a one-character separator. -/
def splitOnChar (sep : Char) (l : List Char) : List (List Char) :=
  l.foldr
    (fun c acc =>
      if c = sep then [] :: acc
      else
        match acc with
        | h :: t => (c :: h) :: t
        | [] => [[c]])
    [[]]

/-- JS `parseInt(s, 10)`: skip leading whitespace, optional sign, then a
leading run of decimal digits; `none` models `NaN`. -/
def jsParseInt (l : List Char) : Option Int :=
  let l1 := l.dropWhile isWS
  let (sgn, l2) : Int × List Char :=
    match l1 with
    | '-' :: t => (-1, t)
    | '+' :: t => (1, t)
    | _ => (1, l1)
  let d := l2.takeWhile isDig
  if d = [] then none else some (sgn * (digitsToNat d : Int))

/-- JS `parseFloat(s)` restricted to the character alphabet that reaches it
in `cleanNumber` (digits, signs, comma, dot, parentheses — so no exponent
forms): skip whitespace, optional sign, integer digits, optional dot and
fraction digits; `none` models `NaN`. -/
def jsParseFloat (l : List Char) : Option ℚ :=
  let l1 := l.dropWhile isWS
  let (sgn, l2) : ℚ × List Char :=
    match l1 with
    | '-' :: t => (-1, t)
    | '+' :: t => (1, t)
    | _ => (1, l1)
  let dInt := l2.takeWhile isDig
  let rest := l2.dropWhile isDig
  let dFrac :=
    match rest with
    | '.' :: t => t.takeWhile isDig
    | _ => []
  if dInt = [] ∧ dFrac = [] then none
  else
    some (sgn * ((digitsToNat dInt : ℚ) +
      (digitsToNat dFrac : ℚ) / ((10 : ℚ) ^ dFrac.length)))

/-- ASCII lower-casing, standing for JS `toLowerCase` on the ASCII data
the dashboard handles. -/
def lowerStr (s : String) : String := String.mk (s.data.map Char.toLower)

/-- Substring test on character lists (JS `String.prototype.includes`). -/
def hasSub (pat : List Char) (l : List Char) : Bool :=
  match l with
  | [] => pat = []
  | _ :: t => (pat.isPrefixOf l) || hasSub pat t

/-- JS `a.includes(b)` on strings. -/
def strIncludes (s pat : String) : Bool := hasSub pat.data s.data

/-! ## Civil date arithmetic

`daysFromCivil`/`civilFromDays` convert between a civil date and a day
count from the Unix epoch; `mkJSDate` is the JS `new Date(year, monthIndex,
day)` constructor, including its month/day rollover and its mapping of
constructor years 0–99 to 1900–1999. -/

/-- Days from the epoch 1970-01-01 to civil date `y-m-d` (proleptic
Gregorian). -/
def daysFromCivil (y m d : Int) : Int :=
  let y' := if m ≤ 2 then y - 1 else y
  let era := y'.fdiv 400
  let yoe := y' - era * 400
  let mp := (m + 9).emod 12
  let doy := (153 * mp + 2) / 5 + d - 1
  let doe := yoe * 365 + yoe / 4 - yoe / 100 + doy
  era * 146097 + doe - 719468

/-- Civil date of a day count from the epoch (inverse of
`daysFromCivil`). -/
def civilFromDays (z : Int) : JSDate :=
  let z' := z + 719468
  let era := z'.fdiv 146097
  let doe := z' - era * 146097
  let yoe := (doe - doe / 1460 + doe / 36524 - doe / 146096) / 365
  let y := yoe + era * 400
  let doy := doe - (365 * yoe + yoe / 4 - yoe / 100)
  let mp := (5 * doy + 2) / 153
  let d := doy - (153 * mp + 2) / 5 + 1
  let m := if mp < 10 then mp + 3 else mp - 9
  { year := if m ≤ 2 then y + 1 else y, month := m, day := d }

/-- JS `new Date(year, monthIndex, day)`: month indices outside 0–11 and
day numbers outside the month roll over arithmetically, and a year
argument of 0–99 is read as 1900+year. -/
def mkJSDate (y mIdx d : Int) : JSDate :=
  let y1 := if 0 ≤ y ∧ y ≤ 99 then y + 1900 else y
  let tm := y1 * 12 + mIdx
  let yy := tm.fdiv 12
  let mm := tm.emod 12 + 1
  civilFromDays (daysFromCivil yy mm 1 + (d - 1))

/-- Day count in a month (proleptic Gregorian), used by the model of JS
ISO-string date validation. -/
def daysInMonth (y m : Int) : Int :=
  if m = 4 ∨ m = 6 ∨ m = 9 ∨ m = 11 then 30
  else if m = 2 then
    if y.emod 4 = 0 ∧ (y.emod 100 ≠ 0 ∨ y.emod 400 = 0) then 29 else 28
  else 31

/-! ## utils.js: `cleanNumber` -/

/-- The unusual space characters that `cleanNumber` first rewrites to a
plain space (utils.js line 11). -/
def uniSpaces : List Char :=
  [' ', ' ', ' ', ' ', ' ', ' ', ' ',
   ' ', ' ', ' ', ' ']

/-- Characters kept by the strip `s.replace(/[^\d\-+,.()]/g,'')`. -/
def keepNumChar (c : Char) : Bool :=
  isDig c ∨ c = '-' ∨ c = '+' ∨ c = ',' ∨ c = '.' ∨ c = '(' ∨ c = ')'

/-- Helper for termination of list scans over `dropWhile`. -/
theorem len_dropWhile_le (p : Char → Bool) (l : List Char) :
    (l.dropWhile p).length ≤ l.length := by
  induction l with
  | nil => simp [List.dropWhile]
  | cons c t ih =>
    by_cases h : p c
    · simp only [List.dropWhile, h, if_true, List.length_cons]
      omega
    · simp [List.dropWhile, h]

/-- The European grouped-decimal test `^\d{1,3}(\.\d{3})+,\d{1,2}$`:
`euroTail` consumes the `(\.\d{3})+,\d{1,2}$` part (`seen` records that at
least one dot group has been consumed).  Each dot group consumes at least
four characters, so the fuel supplied by `euroMatch` always suffices. -/
def euroTail (fuel : ℕ) (l : List Char) (seen : Bool) : Bool :=
  match fuel with
  | 0 => false
  | fuel + 1 =>
    match l with
    | '.' :: t =>
      let d := t.takeWhile isDig
      if d.length = 3 then euroTail fuel (t.dropWhile isDig) true else false
    | ',' :: t =>
      let d := t.takeWhile isDig
      seen && (1 ≤ d.length && (d.length ≤ 2 && t.dropWhile isDig = []))
    | _ => false

/-- Full European grouped-decimal pattern test (utils.js line 15). -/
def euroMatch (l : List Char) : Bool :=
  let d1 := l.takeWhile isDig
  (1 ≤ d1.length && d1.length ≤ 3) && euroTail (l.length + 1) (l.dropWhile isDig) false

/-- The thousands-separator strip `s.replace(/,(?=\d{3}(?:\.|$))/g,'')`:
drop each comma followed by exactly three digits and then a dot or the end
of the string (utils.js line 16). -/
def stripThousands (l : List Char) : List Char :=
  match l with
  | [] => []
  | ',' :: t =>
    match t with
    | a :: b :: c :: rest =>
      if isDig a ∧ isDig b ∧ isDig c ∧ (rest = [] ∨ rest.head? = some '.') then
        stripThousands t
      else ',' :: stripThousands t
    | _ => ',' :: stripThousands t
  | c :: t => c :: stripThousands t

/-- `s.replace(',', '.')` — JS `replace` with a string pattern rewrites only
the first occurrence. -/
def replaceFirstCommaDot (l : List Char) : List Char :=
  match l with
  | [] => []
  | ',' :: t => '.' :: t
  | c :: t => c :: replaceFirstCommaDot t

/-- Core of `cleanNumber` (utils.js lines 8-19) on the trimmed character
data.  The parenthesis-negation case recurses on the interior of the
string, which is at least two characters shorter, so the fuel
`length + 1` supplied by `cleanNumberStr` always suffices. -/
def cleanCore (fuel : ℕ) (l : List Char) : ℚ :=
  match fuel with
  | 0 => 0
  | fuel + 1 =>
    let l1 := l.map (fun c => if c ∈ uniSpaces then ' ' else c)
    let s := l1.filter keepNumChar
    if s = [] then 0
    else if s.head? = some '(' ∧ s.getLast? = some ')' ∧ 2 ≤ s.length then
      -cleanCore fuel (jsTrim (s.drop 1).dropLast)
    else
      let s2 :=
        if euroMatch s then replaceFirstCommaDot (s.filter (fun c => c ≠ '.'))
        else stripThousands s
      (jsParseFloat s2).getD 0

/-- `cleanNumber` on a (non-null, non-empty) string. -/
def cleanNumberStr (s : String) : ℚ := cleanCore (s.data.length + 1) (jsTrim s.data)

/-- `cleanNumber(v)` (utils.js lines 8-19).  `undefined`/null and the empty
string return 0.  A numeric value is stringified and re-parsed by the JS
code; every number stored in a record by the embedded pipeline is a decimal
produced by these same parsers, whose decimal string round-trips, so the
numeric case returns the number itself.  Booleans stringify to
`"true"`/`"false"`, which strip to the empty string.  No verified code path
applies `cleanNumber` to a `Date` value, so its (unmodelled) JS string form
is mapped to 0. -/
def cleanNumberV : JSValue → ℚ
  | .undef => 0
  | .str s => if s = "" then 0 else cleanNumberStr s
  | .num q => q
  | .bool _ => 0
  | .date _ => 0

/-- `isBlank(v)` (data-loader.js lines 20-22): null/undefined or a string
that trims to empty.  Numbers, booleans and dates stringify to non-blank
text. -/
def isBlankV : JSValue → Bool
  | .undef => true
  | .str s => jsTrim s.data = []
  | .num _ => false
  | .bool _ => false
  | .date _ => false

/-- `isTotalLike(v)` (data-loader.js lines 15-19): trimmed, lower-cased
string equal to a total/summary sentinel.  Non-string values never
stringify to a sentinel. -/
def isTotalLikeV : JSValue → Bool
  | .str s =>
    let t := lowerStr (String.mk (jsTrim s.data))
    t = "total" ∨ t = "grand total" ∨ t = "subtotal" ∨ t = "summary"
  | _ => false

/-- JS truthiness of a record value. -/
def truthy : JSValue → Bool
  | .undef => false
  | .str s => s ≠ ""
  | .num q => q ≠ 0
  | .bool b => b
  | .date _ => true

/-! ## utils.js: `parseDate` (second copy, lines 295-347)

The branches of the second copy of `parseDate` are modelled in source
order: spreadsheet-serial numbers, `YYYY-MM-DD` ISO strings, the explicit
`DD/MM/YYYY` two-digit slash form, then the generic
`D{1,2}[slash or dash]D{1,2}[slash or dash]Y{2,4}` form with day/month-order
resolution.  The
final fallback `new Date(str)` applies the environment-defined generic JS
date parser and is modelled as `none`; no claim depends on it, since every
claim instance matches one of the earlier branches. -/

/-- Test and value for the pure-number form `^\d+(\.\d+)?$` used by the
spreadsheet-serial branch. -/
def excelNum (l : List Char) : Option ℚ :=
  if l.takeWhile isDig = [] then none
  else
    match l.dropWhile isDig with
    | [] => some (digitsToNat (l.takeWhile isDig) : ℚ)
    | '.' :: t =>
      if t ≠ [] ∧ t.all isDig then
        some ((digitsToNat (l.takeWhile isDig) : ℚ) + (digitsToNat t : ℚ) / (10 : ℚ) ^ t.length)
      else none
    | _ => none

/-- The ISO prefix test `^\d{4}-\d{2}-\d{2}`. -/
def isoTest (l : List Char) : Bool :=
  isDig (l.getD 0 '?') && (isDig (l.getD 1 '?') && (isDig (l.getD 2 '?') &&
  (isDig (l.getD 3 '?') && (l.getD 4 '?' = '-' && (isDig (l.getD 5 '?') &&
  (isDig (l.getD 6 '?') && (l.getD 7 '?' = '-' && (isDig (l.getD 8 '?') &&
  isDig (l.getD 9 '?')))))))))

/-- `new Date(str)` on a string passing the ISO prefix test, modelled for
the exact 10-character `YYYY-MM-DD` form (the JS ISO parser validates the
calendar and yields Invalid Date otherwise); longer forms with embedded
times are not modelled and give `none`. -/
def isoParse (l : List Char) : Option JSDate :=
  if l.length = 10 then
    let y := digitsToNat (l.take 4)
    let m := digitsToNat ((l.drop 5).take 2)
    let d := digitsToNat ((l.drop 8).take 2)
    if 1 ≤ m ∧ m ≤ 12 ∧ 1 ≤ d ∧ (d : Int) ≤ daysInMonth y m then
      some ⟨y, m, d⟩
    else none
  else none

/-- The explicit two-digit slash form `^\d{2}\/\d{2}\/\d{4}$`
(utils.js lines 319-323), with its captured day, month and year. -/
def matchExplicit (l : List Char) : Option (ℕ × ℕ × ℕ) :=
  match l with
  | [a, b, c, d, e, f, g, h, i, j] =>
    if isDig a ∧ isDig b ∧ c = '/' ∧ isDig d ∧ isDig e ∧ f = '/' ∧
       isDig g ∧ isDig h ∧ isDig i ∧ isDig j then
      some (digitsToNat [a, b], digitsToNat [d, e], digitsToNat [g, h, i, j])
    else none
  | _ => none

/-- The generic form `^(\d{1,2})[\/\-](\d{1,2})[\/\-](\d{2,4})$`
(utils.js line 326), with its three captured numbers. -/
def matchGeneric (l : List Char) : Option (ℕ × ℕ × ℕ) :=
  if 1 ≤ (l.takeWhile isDig).length ∧ (l.takeWhile isDig).length ≤ 2 then
    match l.dropWhile isDig with
    | c1 :: r2 =>
      if c1 = '/' ∨ c1 = '-' then
        if 1 ≤ (r2.takeWhile isDig).length ∧ (r2.takeWhile isDig).length ≤ 2 then
          match r2.dropWhile isDig with
          | c2 :: r4 =>
            if c2 = '/' ∨ c2 = '-' then
              if 2 ≤ (r4.takeWhile isDig).length ∧ (r4.takeWhile isDig).length ≤ 4 ∧
                  r4.dropWhile isDig = [] then
                some (digitsToNat (l.takeWhile isDig), digitsToNat (r2.takeWhile isDig),
                  digitsToNat (r4.takeWhile isDig))
              else none
            else none
          | [] => none
        else none
      else none
    | [] => none
  else none

/-- Day/month-order resolution of the generic branch (utils.js lines
328-341): day-first when the first component exceeds 12, month-first when
only the second does, day-first by default; two-digit years are widened by
2000. -/
def genericResolve (a b yr : ℕ) : JSDate :=
  let yy : Int := if yr < 100 then 2000 + (yr : Int) else (yr : Int)
  if 12 < a ∧ b ≤ 31 then mkJSDate yy ((b : Int) - 1) (a : Int)
  else if 12 < b ∧ a ≤ 12 then mkJSDate yy ((a : Int) - 1) (b : Int)
  else mkJSDate yy ((b : Int) - 1) (a : Int)

/-- The string-form branches of `parseDate` after the spreadsheet-serial
branch, in source order. -/
def parseDateRest (l : List Char) : Option JSDate :=
  if isoTest l then isoParse l
  else
    match matchExplicit l with
    | some (dd, mm, y4) => some (mkJSDate (y4 : Int) ((mm : Int) - 1) (dd : Int))
    | none =>
      match matchGeneric l with
      | some (a, b, yr) => some (genericResolve a b yr)
      | none => none

/-- `parseDate` on the trimmed character data: the spreadsheet-serial
branch (days since 1899-12-30; the fractional time-of-day is not tracked)
followed by the string-form branches. -/
def parseDateChars (l : List Char) : Option JSDate :=
  match excelNum l with
  | some q =>
    if 20000 < q ∧ q < 60000 then
      some (civilFromDays (daysFromCivil 1899 12 30 + ⌊q⌋))
    else parseDateRest l
  | none => parseDateRest l

/-- `parseDate(value)` for a string argument (utils.js second copy, lines
295-347). -/
def parseDate (s : String) : Option JSDate :=
  if s = "" then none else parseDateChars (jsTrim s.data)

/-! ## config.js (first copy) and header resolution -/

/-- The four logical data sources (`CONFIG.dataSources`). -/
inductive SourceKey where
  | inbound | outbound | outbound_connectrate | fcr
deriving DecidableEq, Repr

/-- The logical field roles that appear in `CONFIG.fieldMappings`. -/
inductive Role where
  | date | agent | status | duration | waitTime | count | direction
deriving DecidableEq, Repr

/-- `getFieldMapping(ds, fieldType)` over the first copy of `config.js`
(lines 11-38 and 112): the configured candidate list, or `[]` when the
source has no entry for the role. -/
def getFieldMapping (k : SourceKey) (role : Role) : List String :=
  match k, role with
  | .inbound, .date => ["Date/Time"]
  | .inbound, .agent => ["Agent Name"]
  | .inbound, .status => ["Disposition"]
  | .inbound, .duration => ["Talk Time"]
  | .inbound, .waitTime => ["Wait Time"]
  | .inbound, .count => ["Call ID"]
  | .outbound, .date => ["Date"]
  | .outbound, .agent => ["Agent"]
  | .outbound, .status => ["Answered Calls", "Missed Calls", "Voicemail Calls"]
  | .outbound, .duration => ["Total Call Duration"]
  | .outbound, .count => ["Total Calls"]
  | .outbound_connectrate, .date => ["Date/Time (earliest)", "Date/Time", "Date"]
  | .outbound_connectrate, .direction => ["Initial Direction", "Direction"]
  | .outbound_connectrate, .duration => ["Duration", "Call Duration"]
  | .outbound_connectrate, .agent => ["Agent", "Agent Name"]
  | .fcr, .date => ["Date"]
  | .fcr, .count => ["Count"]
  | _, _ => []

/-- `CONFIG.statusPatterns.abandoned`. -/
def abandonedPatterns : List String :=
  ["abandon", "missed", "no answer", "noanswer", "timeout", "hangup"]

/-- `normalizeHeader(h)` (utils.js lines 4-6): trim, lower-case, strip
non-alphanumerics. -/
def normalizeHeader (s : String) : String :=
  String.mk (((jsTrim s.data).map Char.toLower).filter
    (fun c => ('a' ≤ c ∧ c ≤ 'z') ∨ isDig c))

/-- `findBestMatch(headers, candidates)` (data-loader.js lines 204-212):
first candidate, in priority order, whose normalized form equals some
header's normalized form; returns that header's original spelling. -/
def findBestMatch (headers : List String) (candidates : List String) : Option String :=
  match candidates with
  | [] => none
  | c :: rest =>
    match headers.find? (fun h => normalizeHeader h == normalizeHeader c) with
    | some h => some h
    | none => findBestMatch headers rest

/-- `isAbandoned(status)` (utils.js lines 143-147) on a string. -/
def isAbandonedStr (s : String) : Bool :=
  abandonedPatterns.any (fun p => strIncludes (lowerStr s) p)

/-- `isAbandoned` on a record value: false for null/undefined (the code
guards with `if (!status) return false` and callers pass
`r.Disposition || ''`); the JS string forms of numbers, booleans and dates
contain none of the abandoned keywords. -/
def isAbandonedV : JSValue → Bool
  | .str s => isAbandonedStr s
  | _ => false

/-- JS `a || b` on record values. -/
def jsOrV (a b : JSValue) : JSValue := if truthy a then a else b

/-- JS `a || b` on numbers (no `NaN` arises in the model). -/
def jsOrQ (a b : ℚ) : ℚ := if a ≠ 0 then a else b

/-- A JS falsy test for an optional string filter field (absent or empty
string). -/
def falsyOpt (o : Option String) : Bool :=
  match o with
  | none => true
  | some s => s = ""

/-- `FilterCriteria`: the filter object handed to `getData`. -/
structure Filters where
  startDate : Option String := none
  endDate : Option String := none
  agent : Option String := none
  status : Option String := none

/-- The per-source in-memory store `this.data` of the loader. -/
structure Store where
  inbound : List Rec := []
  outbound : List Rec := []
  outbound_connectrate : List Rec := []
  fcr : List Rec := []

/-- `this.data[key] || []`. -/
def Store.get (st : Store) : SourceKey → List Rec
  | .inbound => st.inbound
  | .outbound => st.outbound
  | .outbound_connectrate => st.outbound_connectrate
  | .fcr => st.fcr

/-- The record-copy step of `processRow` (data-loader.js lines 142-146):
copy every property under its trimmed name, dropping keys that trim to
nothing. -/
def copyTrimKeys (row : Rec) : Rec :=
  row.foldl
    (fun acc p =>
      let ck := String.mk (jsTrim p.1.data)
      if ck = "" then acc else setV acc ck p.2)
    []

/-- `parseDate(value)` for an arbitrary record value: a `Date` value is
returned as-is (the `instanceof Date` branch; model dates are never
invalid); strings go through the string parser; `undefined`/null is falsy
and yields null.  Numbers and booleans do not occur as date inputs on any
verified path and are mapped to `none`. -/
def parseDateV : JSValue → Option JSDate
  | .date d => some d
  | .str s => parseDate s
  | _ => none

/-- The civil-day part of `date.toISOString()` (`.split('T')[0]`), for CE
dates; the UTC shift of `toISOString` is not modelled. -/
def isoDayStr (d : JSDate) : String :=
  let pad2 : ℕ → String := fun n => if n < 10 then "0" ++ toString n else toString n
  let pad4 : ℕ → String := fun n =>
    if n < 10 then "000" ++ toString n
    else if n < 100 then "00" ++ toString n
    else if n < 1000 then "0" ++ toString n
    else toString n
  pad4 d.year.toNat ++ "-" ++ pad2 d.month.toNat ++ "-" ++ pad2 d.day.toNat

/-- Set `date_parsed` and `__chartDate` from a parsed date. -/
def setParsedDate (r : Rec) (pd : JSDate) : Rec :=
  setV (setV r "date_parsed" (JSValue.date pd)) "__chartDate" (JSValue.str (isoDayStr pd))

/-! ## data-loader.js, first copy (namespace `DL`) -/

namespace DL

/-- `processRow(row, map, sourceKey)` (data-loader.js lines 141-202).
The `map` argument is `CONFIG.fieldMappings[key]`, embedded through
`getFieldMapping`; the `|| [...]` defaults on the candidate lists are dead
because the first copy of `config.js` supplies every list this branch
reads.  The fcr guard compares the cleaned numbers; the JS `Date`
constructor truncates its (here positive) arguments, modelled by `⌊·⌋`. -/
def processRow (row : Rec) (key : SourceKey) : Rec :=
  let r := copyTrimKeys row
  match key with
  | .fcr =>
    let year := cleanNumberV (getV r "Year")
    let month := cleanNumberV (getV r "Month")
    let day := cleanNumberV (getV r "Date")
    let r :=
      if 1900 < year ∧ 1 ≤ month ∧ month ≤ 12 ∧ 1 ≤ day ∧ day ≤ 31 then
        setParsedDate r (mkJSDate ⌊year⌋ (⌊month⌋ - 1) ⌊day⌋)
      else r
    setV r "Count_numeric" (JSValue.num (cleanNumberV (getV r "Count")))
  | .outbound =>
    let r :=
      if truthy (getV r "Date") then
        match parseDateV (getV r "Date") with
        | some pd => setParsedDate r pd
        | none => r
      else r
    let r := setV r "TotalCalls_numeric" (JSValue.num (cleanNumberV (getV r "Total Calls")))
    let r := setV r "TotalCallDuration_numeric" (JSValue.num (cleanNumberV (getV r "Total Call Duration")))
    let r := setV r "AnsweredCalls_numeric" (JSValue.num (cleanNumberV (getV r "Answered Calls")))
    let r := setV r "MissedCalls_numeric" (JSValue.num (cleanNumberV (getV r "Missed Calls")))
    setV r "VoicemailCalls_numeric" (JSValue.num (cleanNumberV (getV r "Voicemail Calls")))
  | .inbound =>
    let r :=
      match findBestMatch (keysOf r) (getFieldMapping .inbound .date) with
      | some df =>
        if truthy (getV r df) then
          match parseDateV (getV r df) with
          | some pd => setParsedDate r pd
          | none => r
        else r
      | none => r
    let r :=
      match findBestMatch (keysOf r) (getFieldMapping .inbound .duration) with
      | some df => setV r "duration_numeric" (JSValue.num (cleanNumberV (getV r df)))
      | none => r
    match findBestMatch (keysOf r) (getFieldMapping .inbound .waitTime) with
    | some wf => setV r "waitTime_numeric" (JSValue.num (cleanNumberV (getV r wf)))
    | none => r
  | .outbound_connectrate => r

/-- `isValidRow(row, key)` (data-loader.js lines 214-245). -/
def isValidRow (row : Rec) (key : SourceKey) : Bool :=
  if (valuesOf row).all isBlankV then false
  else
    match key with
    | .outbound =>
      let hasDate := !isBlankV (getV row "Date")
      let hasAgent := !isBlankV (getV row "Agent")
      let hasCallData :=
        (0 < cleanNumberV (getV row "Total Calls") ∨
         0 < cleanNumberV (getV row "Answered Calls") ∨
         0 < cleanNumberV (getV row "Missed Calls") ∨
         0 < cleanNumberV (getV row "Voicemail Calls") : Bool)
      hasDate && (hasAgent && hasCallData)
    | .fcr =>
      let hasValidDate :=
        !isBlankV (getV row "Year") && (!isBlankV (getV row "Month") &&
        (!isBlankV (getV row "Date") && (!isTotalLikeV (getV row "Year") &&
        (!isTotalLikeV (getV row "Month") && !isTotalLikeV (getV row "Date")))))
      let hasCount := (0 < cleanNumberV (getV row "Count") : Bool)
      hasValidDate && hasCount
    | .inbound => !isBlankV (getV row "Call ID")
    | .outbound_connectrate => true

/-- `processData(rows, key)` (data-loader.js lines 125-139): normalize
each row and keep those the validator accepts.  The per-row try/catch of
the source cannot fire in the model, where `processRow` is total. -/
def processData (rows : List Rec) (key : SourceKey) : List Rec :=
  (rows.map (fun row => processRow row key)).filter (fun r => isValidRow r key)

/-- Whether a record carries a successfully parsed date
(`r.date_parsed instanceof Date && !isNaN(r.date_parsed)`; model dates are
never NaN). -/
def hasParsedDate (r : Rec) : Bool :=
  match getV r "date_parsed" with
  | .date _ => true
  | _ => false

/-- Day-granularity membership of a record's parsed date in the inclusive
range `[s, end-of-day e]` (data-loader.js lines 259-262).  Time-of-day is
not tracked, so the end-of-day adjustment collapses to `≤` on civil
days. -/
def dateInRange (s e : JSDate) (r : Rec) : Bool :=
  match getV r "date_parsed" with
  | .date d =>
    daysFromCivil s.year s.month s.day ≤ daysFromCivil d.year d.month d.day &&
    daysFromCivil d.year d.month d.day ≤ daysFromCivil e.year e.month e.day
  | _ => false

/-- `filterByDateRange(key, startDate, endDate)` (data-loader.js lines
247-263): no-op when either bound is falsy or unparseable, and — the
guard this file verifies — when no stored record has a parsed date. -/
def filterByDateRange (st : Store) (key : SourceKey) (startDate endDate : Option String) : List Rec :=
  let data := st.get key
  match startDate, endDate with
  | some s, some e =>
    if s = "" ∨ e = "" then data
    else
      match parseDate s, parseDate e with
      | some sd, some ed =>
        if data.any hasParsedDate then data.filter (dateInRange sd ed) else data
      | _, _ => data
  | _, _ => data

/-- One agent/status substring test
(`r[f] && String(r[f]).toLowerCase().includes(q)`); the fields consulted
hold CSV strings, so only string values can match. -/
def fieldMatches (r : Rec) (fieldName : String) (q : String) : Bool :=
  truthy (getV r fieldName) &&
    (match getV r fieldName with
     | .str s => strIncludes (lowerStr s) q
     | _ => false)

/-- `getData(key, filters)` (data-loader.js lines 265-294): optional date
filtering (kept only when non-empty, except for the inbound source), then
agent and status substring filters over the configured candidate
fields. -/
def getData (st : Store) (key : SourceKey) (f : Filters) : List Rec :=
  let original := st.get key
  let data :=
    if !falsyOpt f.startDate ∧ !falsyOpt f.endDate then
      let filtered := filterByDateRange st key f.startDate f.endDate
      if 0 < filtered.length ∨ key = .inbound then filtered else original
    else original
  let data :=
    match f.agent with
    | some a =>
      if a ≠ "" then
        data.filter (fun r => (getFieldMapping key .agent).any (fun fl => fieldMatches r fl (lowerStr a)))
      else data
    | none => data
  match f.status with
  | some sfl =>
    if sfl ≠ "" then
      data.filter (fun r => (getFieldMapping key .status).any (fun fl => fieldMatches r fl (lowerStr sfl)))
    else data
  | none => data

end DL

/-! ## The `outbound_connectrate` loader iteration (part_006, namespace `DL6`)
and the total-row-aware validator iteration (part_007, namespace `DL7`) -/

namespace DL6

/-- The duration-to-seconds computation of the `outbound_connectrate`
branch (part_006 lines 199-210):
`String(v).trim().split(':').map(n => parseInt(n,10) || 0)`, combined as
hours/minutes/seconds for three parts and minutes/seconds for two,
otherwise falling back to `cleanNumber(v) || 0`.  The JS string form of a
non-string value contains no colon, so such values take the fallback
branch directly. -/
def durationSecondsOfVal (v : JSValue) : ℚ :=
  match v with
  | .str s =>
    let parts := (splitOnChar ':' (jsTrim s.data)).map (fun p => (jsParseInt p).getD 0)
    match parts with
    | [h, m, sec] => ((h * 3600 + m * 60 + sec : Int) : ℚ)
    | [m, sec] => ((m * 60 + sec : Int) : ℚ)
    | _ => jsOrQ (cleanNumberV v) 0
  | _ => jsOrQ (cleanNumberV v) 0

/-- `processRow` for `sourceKey === 'outbound_connectrate'` (part_006
lines 177-218): resolve the date/direction/duration/agent columns, parse
the date, lower-case the direction, convert the duration to seconds, and
derive `isConnected = duration_seconds > 150` and
`isOutbound = direction starts with "out"`.  The `|| [...]` defaults on
the candidate lists are dead because `config.js` supplies all four lists.
Direction fields hold CSV strings, so only string values produce a
non-empty lower-cased direction. -/
def processRowCR (row : Rec) : Rec :=
  let r := copyTrimKeys row
  let headers := keysOf r
  let dateF := findBestMatch headers (getFieldMapping .outbound_connectrate .date)
  let dirF := findBestMatch headers (getFieldMapping .outbound_connectrate .direction)
  let durF := findBestMatch headers (getFieldMapping .outbound_connectrate .duration)
  let agF := findBestMatch headers (getFieldMapping .outbound_connectrate .agent)
  let r :=
    match dateF with
    | some df =>
      if truthy (getV r df) then
        match parseDateV (getV r df) with
        | some pd => setParsedDate r pd
        | none => r
      else r
    | none => r
  let dirVal : String :=
    match dirF with
    | some df =>
      if truthy (getV r df) then
        match getV r df with
        | .str s => lowerStr (String.mk (jsTrim s.data))
        | _ => ""
      else ""
    | none => ""
  let r := setV r "InitialDirection" (JSValue.str dirVal)
  let r :=
    match agF with
    | some af => setV r "Agent" (getV r af)
    | none => setV r "Agent" (jsOrV (getV r "Agent") (jsOrV (getV r "Agent Name") (JSValue.str "")))
  let durSecs : ℚ :=
    match durF with
    | some df => if truthy (getV r df) then durationSecondsOfVal (getV r df) else 0
    | none => 0
  let r := setV r "duration_seconds" (JSValue.num durSecs)
  let r := setV r "isConnected" (JSValue.bool (150 < durSecs))
  setV r "isOutbound" (JSValue.bool (dirVal.startsWith "out"))

end DL6

namespace DL7

/-- Reading of the derived `*_numeric` fields in the part_007 validator:
`Number.isFinite(row.F) && row.F > 0` — a missing or non-numeric property
fails the `isFinite` test. -/
def finitePos (v : JSValue) : Bool :=
  match v with
  | .num q => 0 < q
  | _ => false

/-- `isValidRow(row, key)` of the total-row-aware loader iteration
(part_007 lines 237-272). -/
def isValidRow (row : Rec) (key : SourceKey) : Bool :=
  if (valuesOf row).all isBlankV then false
  else
    match key with
    | .outbound =>
      if isTotalLikeV (getV row "Date") || isTotalLikeV (getV row "Agent") then false
      else
        finitePos (getV row "TotalCalls_numeric") ||
        (finitePos (getV row "AnsweredCalls_numeric") ||
        (finitePos (getV row "MissedCalls_numeric") ||
        finitePos (getV row "VoicemailCalls_numeric")))
    | .fcr =>
      if isTotalLikeV (getV row "Date") || (isTotalLikeV (getV row "Year") ||
         isTotalLikeV (getV row "Month")) then false
      else
        finitePos (getV row "Count_numeric") &&
        (truthy (getV row "date_parsed") || truthy (getV row "__chartDate"))
    | .inbound => !isBlankV (getV row "Call ID")
    | .outbound_connectrate => true

end DL7

/-! ## renderers.js (namespace `R`) -/

namespace R

/-- `PageRenderer.avg(data, field)` (renderers.js lines 312-316): clean
every record's field value to a number, keep the non-negative ones, and
average; 0 when nothing qualifies. -/
def avg (data : List Rec) (field : String) : ℚ :=
  let nums := (data.map (fun r => cleanNumberV (getV r field))).filter (fun n => 0 ≤ n)
  if nums.length = 0 then 0 else nums.sum / (nums.length : ℚ)

/-- The KPI object produced by `calculateKPIs`; fields the rendered page
does not set keep the default 0. -/
structure KPIOut where
  totalCalls : ℚ := 0
  abandonRate : ℚ := 0
  avgHandleTime : ℚ := 0
  avgWaitTime : ℚ := 0
  connectRate : ℚ := 0
  avgTalkTime : ℚ := 0
  totalCases : ℚ := 0
  fcrPercentage : ℚ := 0

/-- `PageRenderer.calculateKPIs(pageKey, data)` (renderers.js lines
234-310).  `st` and `f` stand for the loader singleton's store and the
renderer's `this.currentFilters`, which the outbound and fcr branches read
through `dataLoader.getData`; `data` is the argument passed by
`renderPage`.  The try/catch of the fcr branch cannot fire in the model,
where every read is total. -/
def calculateKPIs (st : Store) (f : Filters) (page : SourceKey) (data : List Rec) : KPIOut :=
  match page with
  | .inbound =>
    let total := data.length
    let abandoned := (data.filter (fun r => isAbandonedV (getV r "Disposition"))).length
    { totalCalls := total,
      abandonRate := if 0 < total then ((abandoned : ℚ) / (total : ℚ)) * 100 else 0,
      avgHandleTime := jsOrQ (avg data "duration_numeric") (jsOrQ (avg data "Talk Time") 0),
      avgWaitTime := jsOrQ (avg data "waitTime_numeric") (jsOrQ (avg data "Wait Time") 0) }
  | .outbound =>
    let outboundCallsData := DL.getData st .outbound f
    let connectRateData := DL.getData st .outbound_connectrate f
    let totalOutboundCalls := (outboundCallsData.map (fun r => cleanNumberV (getV r "Outbound Calls"))).sum
    let totalAttempts := connectRateData.length
    let connectedCalls := (connectRateData.filter (fun r => truthy (getV r "isConnected"))).length
    let actualConnectRate :=
      if 0 < totalAttempts then ((connectedCalls : ℚ) / (totalAttempts : ℚ)) * 100 else 0
    let duration := (outboundCallsData.map (fun r => cleanNumberV (getV r "TotalCallDuration_numeric"))).sum
    { totalCalls := totalOutboundCalls,
      connectRate := actualConnectRate,
      avgTalkTime := if 0 < totalOutboundCalls then duration / totalOutboundCalls else 0 }
  | .fcr =>
    let totalCases := (data.map (fun r => cleanNumberV (getV r "Count_numeric"))).sum
    let inboundData := DL.getData st .inbound f
    let outboundConnectData := DL.getData st .outbound_connectrate f
    let totalInboundConnected := (inboundData.filter (fun r => !isAbandonedV (getV r "Disposition"))).length
    let totalOutboundConnected := (outboundConnectData.filter (fun r => truthy (getV r "isConnected"))).length
    let totalConnectedCalls := totalInboundConnected + totalOutboundConnected
    { totalCases := totalCases,
      fcrPercentage :=
        if 0 < totalConnectedCalls then (totalCases / (totalConnectedCalls : ℚ)) * 100 else 0 }
  | .outbound_connectrate => {}

end R

/-- The spec-side average of claim C6, written from the spec's words for
comparison with `R.avg`: the arithmetic mean of the cleaned field value
over records where the field is *present* (the key exists) and the value
is non-negative, so that a record missing the field is excluded from the
denominator. -/
def specC6PresentMean (data : List Rec) (field : String) : ℚ :=
  let present := data.filter
    (fun r => (r.find? (fun p => p.1 == field)).isSome ∧ 0 ≤ cleanNumberV (getV r field))
  if present.length = 0 then 0
  else (present.map (fun r => cleanNumberV (getV r field))).sum / (present.length : ℚ)

/-! ## Record-access lemmas -/

theorem getV_cons (p : String × JSValue) (t : Rec) (k : String) :
    getV (p :: t) k = if p.1 == k then p.2 else getV t k := by
  by_cases h : p.1 == k <;> simp [getV, List.find?, h]

theorem setV_cons (p : String × JSValue) (t : Rec) (k : String) (v : JSValue) :
    setV (p :: t) k v =
      if p.1 == k then (k, v) :: t.map (fun q => if q.1 == k then (k, v) else q)
      else p :: setV t k v := by
  unfold setV
  by_cases h : p.1 == k
  · simp [List.find?, h]
    intro hn
    exact absurd (by simpa [beq_iff_eq] using h) hn
  · have hne : p.1 ≠ k := by simpa [beq_iff_eq] using h
    simp only [List.find?, h]
    by_cases h2 : (List.find? (fun q => q.1 == k) t).isSome
    · simp [h, h2]
      intro hpk
      exact absurd hpk hne
    · simp [h, h2]

theorem getV_map_replace (t : Rec) (k k' : String) (v : JSValue) (h : k' ≠ k) :
    getV (t.map (fun q => if q.1 = k then (k, v) else q)) k' = getV t k' := by
  induction t with
  | nil => rfl
  | cons q t ih =>
    by_cases hq : q.1 = k
    · have hkk : ((k : String) == k') = false := by
        simp [beq_iff_eq]
        exact fun hkk => h hkk.symm
      have hq' : (q.1 == k') = false := by
        simp [hq, beq_iff_eq]
        exact fun hkk => h hkk.symm
      simp [getV_cons, hq, hkk, hq', ih]
    · simp only [List.map_cons, hq, ite_false]
      by_cases hq' : q.1 == k' <;> simp [getV_cons, hq', ih]

theorem getV_setV_same (r : Rec) (k : String) (v : JSValue) :
    getV (setV r k v) k = v := by
  induction r with
  | nil => simp [setV, getV, List.find?]
  | cons p t ih =>
    rw [setV_cons]
    by_cases hp : p.1 == k
    · simp [hp, getV_cons]
    · simp [hp, getV_cons, ih]

theorem getV_setV_other (r : Rec) (k k' : String) (v : JSValue) (h : k' ≠ k) :
    getV (setV r k v) k' = getV r k' := by
  induction r with
  | nil =>
    have hkk : ((k : String) == k') = false := by
      simp [beq_iff_eq]
      exact fun hkk => h hkk.symm
    simp [setV, getV, List.find?, hkk]
  | cons p t ih =>
    rw [setV_cons]
    by_cases hp : p.1 == k
    · have hkk : ((k : String) == k') = false := by
        simp [beq_iff_eq]
        exact fun hkk => h hkk.symm
      have hp' : (p.1 == k') = false := by
        have hpk : p.1 = k := by simpa [beq_iff_eq] using hp
        simp [hpk, beq_iff_eq]
        exact fun hkk => h hkk.symm
      simp [hp, getV_cons, hkk, hp', getV_map_replace t k k' v h]
    · by_cases hp' : p.1 == k' <;> simp [hp, hp', getV_cons, ih]

/-! ## Claim theorems -/

/-- Claim C9: `cleanNumber` (NumericCoercion) returns exactly 0 for null,
for the empty string, and for a string with no parseable numeric content
such as "abc".  It is a total function into `ℚ` (the model of its
never-throws, always-finite contract), so its result is always safe to
accumulate in sums. -/
theorem c9_cleanNumber_null_empty_unparseable :
    cleanNumberV JSValue.undef = 0 ∧ cleanNumberV (JSValue.str "") = 0 ∧
      cleanNumberV (JSValue.str "abc") = 0 := by
  refine ⟨rfl, rfl, ?_⟩
  with_unfolding_all decide

/-- Claim C3: for every source type and every sequence of raw rows, every
record that `processData` puts into the store satisfies that source's
`isValidRow` predicate — store contents are valid by construction. -/
theorem c3_store_records_valid (key : SourceKey) (rows : List Rec) (r : Rec)
    (h : r ∈ DL.processData rows key) : DL.isValidRow r key = true := by
  unfold DL.processData at h
  exact (List.mem_filter.mp h).2

/-- Witness for C3 at a concrete inbound row. -/
theorem c3_witness :
    DL.isValidRow (DL.processRow [("Call ID", JSValue.str "1")] SourceKey.inbound)
      SourceKey.inbound = true :=
  c3_store_records_valid SourceKey.inbound [[("Call ID", JSValue.str "1")]] _
    (by with_unfolding_all decide)

/-- Claim C10: when a source's field-mapping configuration has no
candidate header names for the agent (resp. status) role, a non-empty
agent (resp. status) substring filter through `getData` filters every
record out and returns the empty set. -/
theorem c10_missing_mapping_empty_result (st : Store) (key : SourceKey) (f : Filters) :
    (∀ a, getFieldMapping key .agent = [] → f.agent = some a → a ≠ "" →
      DL.getData st key f = []) ∧
    (∀ s, getFieldMapping key .status = [] → f.status = some s → s ≠ "" →
      DL.getData st key f = []) := by
  constructor
  · intro a hmap hag hne
    unfold DL.getData
    rw [hag]
    simp only [hmap, List.any_nil, List.filter_false, hne]
    cases f.status with
    | none => simp [hne]
    | some s => by_cases hse : s = "" <;> simp [hne, hse]
  · intro s hmap hst hne
    unfold DL.getData
    rw [hst]
    simp [hmap, hne]

/-- Witness for C10: the fcr source has no agent mapping, so an agent
filter empties it. -/
theorem c10_witness :
    DL.getData { fcr := [[("Count", JSValue.str "5")]] } SourceKey.fcr
      { agent := some "x" } = [] :=
  (c10_missing_mapping_empty_result { fcr := [[("Count", JSValue.str "5")]] }
      SourceKey.fcr { agent := some "x" }).1 "x" rfl rfl (by decide)

/-- Claim C4: for a source in which no stored record has a successfully
parsed date, applying a date-range filter through `getData` is a no-op
returning the full record set (never an empty result). -/
theorem c4_date_filter_noop_without_dates (st : Store) (key : SourceKey) (sd ed : Option String)
    (h : ∀ r ∈ st.get key, DL.hasParsedDate r = false) :
    DL.getData st key { startDate := sd, endDate := ed } = st.get key := by
  have hfilter : DL.filterByDateRange st key sd ed = st.get key := by
    unfold DL.filterByDateRange
    cases sd with
    | none => rfl
    | some s =>
      cases ed with
      | none => rfl
      | some e =>
        by_cases hse : s = "" ∨ e = ""
        · simp [hse]
        · simp only [hse, ite_false]
          cases hps : parseDate s with
          | none => rfl
          | some sdv =>
            cases hpe : parseDate e with
            | none => rfl
            | some edv =>
              have hany : (st.get key).any DL.hasParsedDate = false := by
                rw [List.any_eq_false]
                intro r hr
                simp [h r hr]
              simp [hany]
  unfold DL.getData
  simp [hfilter, ite_self]

/-- Witness for C4: a one-record fcr store with no parseable date survives
a date-range query unchanged. -/
theorem c4_witness :
    (∀ r ∈ (({ fcr := [[("Count", JSValue.str "5")]] } : Store)).get SourceKey.fcr,
        DL.hasParsedDate r = false) ∧
    DL.getData ({ fcr := [[("Count", JSValue.str "5")]] } : Store) SourceKey.fcr
        { startDate := some "2024-01-01", endDate := some "2024-12-31" } =
      ({ fcr := [[("Count", JSValue.str "5")]] } : Store).get SourceKey.fcr :=
  ⟨by decide,
    c4_date_filter_noop_without_dates ({ fcr := [[("Count", JSValue.str "5")]] } : Store)
      SourceKey.fcr (some "2024-01-01") (some "2024-12-31") (by decide)⟩

/-- Claim C5: every KPI ratio of `calculateKPIs` — abandonRate,
avgHandleTime/avgWaitTime (through `avg`), connectRate, avgTalkTime and
fcrPercentage — yields exactly 0 when its denominator is zero, including
on the empty record set.  In the `ℚ` embedding every KPI is a total value,
the model of the never-NaN/Infinity contract: the guards verified here are
exactly what keeps the JS code from dividing by zero. -/
theorem c5_zero_denominators_give_zero (st : Store) (f : Filters) :
    (∀ data field,
      ((data.map (fun r => cleanNumberV (getV r field))).filter (fun n => 0 ≤ n)) = [] →
        R.avg data field = 0) ∧
    (∀ data : List Rec, data = [] →
      (R.calculateKPIs st f .inbound data).abandonRate = 0 ∧
      (R.calculateKPIs st f .inbound data).avgHandleTime = 0 ∧
      (R.calculateKPIs st f .inbound data).avgWaitTime = 0) ∧
    (∀ data, DL.getData st .outbound_connectrate f = [] →
      (R.calculateKPIs st f .outbound data).connectRate = 0) ∧
    (∀ data,
      ((DL.getData st .outbound f).map (fun r => cleanNumberV (getV r "Outbound Calls"))).sum = 0 →
      (R.calculateKPIs st f .outbound data).avgTalkTime = 0) ∧
    (∀ data,
      ((DL.getData st .inbound f).filter (fun r => !isAbandonedV (getV r "Disposition"))).length +
        ((DL.getData st .outbound_connectrate f).filter (fun r => truthy (getV r "isConnected"))).length = 0 →
      (R.calculateKPIs st f .fcr data).fcrPercentage = 0) := by
  refine ⟨?_, ?_, ?_, ?_, ?_⟩
  · intro data field hnil
    simp [R.avg, hnil]
  · intro data hd
    subst hd
    simp [R.calculateKPIs, R.avg, jsOrQ]
  · intro data hcr
    simp [R.calculateKPIs, hcr]
  · intro data hsum
    simp [R.calculateKPIs, hsum]
  · intro data hden
    simp [R.calculateKPIs, hden]

/-- Witness for C5 on empty stores and the empty record set. -/
theorem c5_witness :
    R.avg [] "Talk Time" = 0 ∧
    (R.calculateKPIs {} {} .inbound []).abandonRate = 0 ∧
    (R.calculateKPIs {} {} .inbound []).avgHandleTime = 0 ∧
    (R.calculateKPIs {} {} .inbound []).avgWaitTime = 0 ∧
    (R.calculateKPIs {} {} .outbound []).connectRate = 0 ∧
    (R.calculateKPIs {} {} .outbound []).avgTalkTime = 0 ∧
    (R.calculateKPIs {} {} .fcr []).fcrPercentage = 0 := by
  have h := c5_zero_denominators_give_zero {} {}
  exact ⟨h.1 [] "Talk Time" (by decide), (h.2.1 [] rfl).1, (h.2.1 [] rfl).2.1,
    (h.2.1 [] rfl).2.2, h.2.2.1 [] (by decide), h.2.2.2.1 [] (by decide),
    h.2.2.2.2 [] (by decide)⟩

/-- Claim C1: on the FCR page, `fcrPercentage` equals the sum of FCR case
counts divided by (inbound records not classified abandoned plus
connect-rate records with `isConnected`), times 100, where all three
source reads pass the same active filter criteria `f` — the fcr data is
the page's own `getData` read and the other two reads happen inside the
fcr branch of `calculateKPIs`. -/
theorem c1_fcr_percentage_formula (st : Store) (f : Filters)
    (h : 0 <
      ((DL.getData st .inbound f).filter (fun r => !isAbandonedV (getV r "Disposition"))).length +
        ((DL.getData st .outbound_connectrate f).filter (fun r => truthy (getV r "isConnected"))).length) :
    (R.calculateKPIs st f .fcr (DL.getData st .fcr f)).fcrPercentage =
      (((DL.getData st .fcr f).map (fun r => cleanNumberV (getV r "Count_numeric"))).sum /
        (((((DL.getData st .inbound f).filter (fun r => !isAbandonedV (getV r "Disposition"))).length +
          ((DL.getData st .outbound_connectrate f).filter
            (fun r => truthy (getV r "isConnected"))).length) : ℕ) : ℚ)) * 100 := by
  simp only [R.calculateKPIs]
  rw [if_pos h]

/-- Witness for C1: a store with one connected inbound record and no FCR
cases gives `fcrPercentage = (0 / 1) * 100`. -/
theorem c1_witness :
    (R.calculateKPIs ({ inbound := [[]] } : Store) {} .fcr
        (DL.getData ({ inbound := [[]] } : Store) .fcr {})).fcrPercentage =
      (((DL.getData ({ inbound := [[]] } : Store) .fcr {}).map
          (fun r => cleanNumberV (getV r "Count_numeric"))).sum /
        (((((DL.getData ({ inbound := [[]] } : Store) .inbound {}).filter
              (fun r => !isAbandonedV (getV r "Disposition"))).length +
          ((DL.getData ({ inbound := [[]] } : Store) .outbound_connectrate {}).filter
              (fun r => truthy (getV r "isConnected"))).length) : ℕ) : ℚ)) * 100 :=
  c1_fcr_percentage_formula ({ inbound := [[]] } : Store) {} (by decide)

/-- Claim C2: in the connect-rate loader branch, the derived `isConnected`
flag is true exactly when the row's derived duration in seconds strictly
exceeds 150; in particular a `Duration` of "02:31" gives true and "02:30"
gives false. -/
theorem c2_isConnected_threshold :
    (∀ row : Rec,
      (getV (DL6.processRowCR row) "isConnected" = JSValue.bool true ↔
        ∃ q : ℚ, getV (DL6.processRowCR row) "duration_seconds" = JSValue.num q ∧ 150 < q)) ∧
    getV (DL6.processRowCR [("Duration", JSValue.str "02:31"),
        ("Initial Direction", JSValue.str "Outbound")]) "isConnected" = JSValue.bool true ∧
    getV (DL6.processRowCR [("Duration", JSValue.str "02:30"),
        ("Initial Direction", JSValue.str "Outbound")]) "isConnected" = JSValue.bool false := by
  refine ⟨?_, by with_unfolding_all decide, by with_unfolding_all decide⟩
  intro row
  simp only [DL6.processRowCR]
  rw [getV_setV_other _ "isOutbound" "isConnected" _ (by decide), getV_setV_same,
    getV_setV_other _ "isOutbound" "duration_seconds" _ (by decide),
    getV_setV_other _ "isConnected" "duration_seconds" _ (by decide), getV_setV_same]
  constructor
  · intro hb
    refine ⟨_, rfl, ?_⟩
    simpa using hb
  · rintro ⟨q, hq, hlt⟩
    simp only [JSValue.num.injEq] at hq
    rw [hq]
    simpa using hlt

/-- Counterexample to claim C6: on the inbound data
`[{Talk Time: "10"}, {}]` the code's `avgHandleTime` is 5 — the record
missing the field contributes a zero to numerator and denominator — while
the claimed present-fields-only mean (`specC6PresentMean`) is 10. -/
theorem c6_counterexample :
    ¬ ((R.calculateKPIs {} {} .inbound
          [[("Talk Time", JSValue.str "10")], []]).avgHandleTime =
        specC6PresentMean [[("Talk Time", JSValue.str "10")], []] "Talk Time") := by
  with_unfolding_all decide

/-- Amended claim C6: `avg` equals the arithmetic mean of the *cleaned*
field value over the records whose cleaned value is non-negative — a
record missing the field cleans to 0, which passes the non-negative
filter, so it is included in (and inflates) the denominator; only records
whose cleaned value is negative are excluded.  `avgHandleTime` and
`avgWaitTime` are built from this `avg` by the `||`-fallback chain of the
inbound branch. -/
theorem c6_amended_avg_counts_missing_as_zero (data : List Rec) (field : String) :
    R.avg data field =
      (if (data.filter (fun r => 0 ≤ cleanNumberV (getV r field))).length = 0 then 0
       else ((data.filter (fun r => 0 ≤ cleanNumberV (getV r field))).map
            (fun r => cleanNumberV (getV r field))).sum /
          ((data.filter (fun r => 0 ≤ cleanNumberV (getV r field))).length : ℚ)) := by
  unfold R.avg
  have hcomm : (data.map (fun r => cleanNumberV (getV r field))).filter (fun n => 0 ≤ n)
      = (data.filter (fun r => 0 ≤ cleanNumberV (getV r field))).map
          (fun r => cleanNumberV (getV r field)) := by
    rw [List.filter_map]
    rfl
  rw [hcomm]
  simp only [List.length_map]

/-- Counterexample to claim C8: the primary validator accepts an outbound
row whose date field is literally "Total" as soon as the agent is
non-blank and a call metric is positive. -/
theorem c8_counterexample :
    getV [("Date", JSValue.str "Total"), ("Agent", JSValue.str "Alice"),
        ("Total Calls", JSValue.str "5")] "Date" = JSValue.str "Total" ∧
    DL.isValidRow [("Date", JSValue.str "Total"), ("Agent", JSValue.str "Alice"),
        ("Total Calls", JSValue.str "5")] SourceKey.outbound = true :=
  ⟨by decide, by with_unfolding_all decide⟩

/-- Amended claim C8: a record whose `Date` field is literally "Total" is
always rejected for the fcr source (both the primary and the total-aware
validator), and for the outbound source by the total-aware validator
iteration; the primary outbound validator checks blankness, not total
sentinels. -/
theorem c8_amended_total_row_rejection (row : Rec)
    (h : getV row "Date" = JSValue.str "Total") :
    DL.isValidRow row SourceKey.fcr = false ∧
    DL7.isValidRow row SourceKey.fcr = false ∧
    DL7.isValidRow row SourceKey.outbound = false := by
  have htot : isTotalLikeV (getV row "Date") = true := by
    rw [h]
    decide
  refine ⟨?_, ?_, ?_⟩
  · unfold DL.isValidRow
    by_cases hb : (valuesOf row).all isBlankV
    · simp [hb]
    · simp [hb, htot]
  · unfold DL7.isValidRow
    by_cases hb : (valuesOf row).all isBlankV
    · simp [hb]
    · simp [hb, htot]
  · unfold DL7.isValidRow
    by_cases hb : (valuesOf row).all isBlankV
    · simp [hb]
    · simp [hb, htot]

/-- Witness for the amended C8 at a concrete total row. -/
theorem c8_witness :
    DL.isValidRow [("Date", JSValue.str "Total")] SourceKey.fcr = false ∧
    DL7.isValidRow [("Date", JSValue.str "Total")] SourceKey.fcr = false ∧
    DL7.isValidRow [("Date", JSValue.str "Total")] SourceKey.outbound = false :=
  c8_amended_total_row_rejection [("Date", JSValue.str "Total")] (by decide)

/-! ## Supporting lemmas for the date-parsing claim -/

theorem matchGeneric_parts (l : List Char) (a b yr : ℕ)
    (hg : matchGeneric l = some (a, b, yr)) :
    (1 ≤ (l.takeWhile isDig).length ∧ (l.takeWhile isDig).length ≤ 2) ∧
    ∃ c1 r2, l.dropWhile isDig = c1 :: r2 ∧ (c1 = '/' ∨ c1 = '-') := by
  unfold matchGeneric at hg
  by_cases h1 : 1 ≤ (l.takeWhile isDig).length ∧ (l.takeWhile isDig).length ≤ 2
  · rw [if_pos h1] at hg
    cases hdrop : l.dropWhile isDig with
    | nil =>
      rw [hdrop] at hg
      simp at hg
    | cons c1 r2 =>
      rw [hdrop] at hg
      by_cases hc1 : c1 = '/' ∨ c1 = '-'
      · exact ⟨h1, c1, r2, rfl, hc1⟩
      · simp [hc1] at hg
  · rw [if_neg h1] at hg
    simp at hg

theorem matchGeneric_excelNum_none (l : List Char) (a b yr : ℕ)
    (hg : matchGeneric l = some (a, b, yr)) : excelNum l = none := by
  obtain ⟨⟨hlen1, _⟩, c1, r2, hdrop, hc1⟩ := matchGeneric_parts l a b yr hg
  have hne : l.takeWhile isDig ≠ [] := by
    intro hnil
    rw [hnil] at hlen1
    simp at hlen1
  unfold excelNum
  rw [if_neg hne, hdrop]
  rcases hc1 with h | h <;> subst h <;> rfl

theorem matchGeneric_isoTest_false (l : List Char) (a b yr : ℕ)
    (hg : matchGeneric l = some (a, b, yr)) : isoTest l = false := by
  obtain ⟨⟨hlen1, hlen2⟩, c1, r2, hdrop, hc1⟩ := matchGeneric_parts l a b yr hg
  have hsplit : l.takeWhile isDig ++ (c1 :: r2) = l := by
    rw [← hdrop, List.takeWhile_append_dropWhile]
  have hnd : isDig c1 = false := by
    rcases hc1 with h | h <;> subst h <;> rfl
  have hshape : (∃ x, l.takeWhile isDig = [x]) ∨ ∃ x y, l.takeWhile isDig = [x, y] := by
    cases hl : l.takeWhile isDig with
    | nil =>
      rw [hl] at hlen1
      simp at hlen1
    | cons x t =>
      cases ht : t with
      | nil => exact Or.inl ⟨x, rfl⟩
      | cons y t2 =>
        cases ht2 : t2 with
        | nil => exact Or.inr ⟨x, y, rfl⟩
        | cons z t3 =>
          rw [hl, ht, ht2] at hlen2
          simp at hlen2
  rcases hshape with ⟨x, hx⟩ | ⟨x, y, hxy⟩
  · have hl : l = x :: c1 :: r2 := by
      rw [← hsplit, hx]
      rfl
    rw [hl]
    simp [isoTest, hnd]
  · have hl : l = x :: y :: c1 :: r2 := by
      rw [← hsplit, hxy]
      rfl
    rw [hl]
    simp [isoTest, hnd]

theorem matchExplicit_shape (l : List Char) (dd mm y4 : ℕ)
    (he : matchExplicit l = some (dd, mm, y4)) :
    ∃ x0 x1 x3 x4 x6 x7 x8 x9,
      l = [x0, x1, '/', x3, x4, '/', x6, x7, x8, x9] ∧
      isDig x0 = true ∧ isDig x1 = true ∧ isDig x3 = true ∧ isDig x4 = true ∧
      isDig x6 = true ∧ isDig x7 = true ∧ isDig x8 = true ∧ isDig x9 = true ∧
      dd = digitsToNat [x0, x1] ∧ mm = digitsToNat [x3, x4] ∧
      y4 = digitsToNat [x6, x7, x8, x9] := by
  rcases l with _|⟨x0,_|⟨x1,_|⟨x2,_|⟨x3,_|⟨x4,_|⟨x5,_|⟨x6,_|⟨x7,_|⟨x8,_|⟨x9,rest⟩⟩⟩⟩⟩⟩⟩⟩⟩⟩ <;>
    try simp [matchExplicit] at he
  rcases rest with _ | ⟨x10, rest⟩
  · simp only [matchExplicit] at he
    split at he
    · next hcond =>
      obtain ⟨h0, h1, h2, h3, h4, h5, h6, h7, h8, h9⟩ := hcond
      subst h2
      subst h5
      injection he with hinj
      have hcomp := hinj.symm
      simp only [Prod.mk.injEq] at hcomp
      exact ⟨x0, x1, x3, x4, x6, x7, x8, x9, rfl, h0, h1, h3, h4, h6, h7, h8, h9,
        hcomp.1, hcomp.2.1, hcomp.2.2⟩
    · simp at he
  · simp [matchExplicit] at he

theorem matchExplicit_generic_agree (l : List Char) (dd mm y4 a b yr : ℕ)
    (he : matchExplicit l = some (dd, mm, y4))
    (hg : matchGeneric l = some (a, b, yr)) :
    dd = a ∧ mm = b ∧ y4 = yr := by
  obtain ⟨x0, x1, x3, x4, x6, x7, x8, x9, hl, h0, h1, h3, h4, h6, h7, h8, h9, hdd, hmm, hy⟩ :=
    matchExplicit_shape l dd mm y4 he
  subst hl
  have hslash : isDig '/' = false := rfl
  simp only [matchGeneric, List.takeWhile, List.dropWhile, h0, h1, h3, h4, h6, h7, h8, h9,
    hslash, Bool.false_eq_true, if_false, if_true, List.length_cons, List.length_nil] at hg
  simp only [show (0 + 1 + 1 : ℕ) = 2 by rfl] at hg
  norm_num at hg
  exact ⟨hdd.trans hg.1, hmm.trans hg.2.1, hy.trans hg.2.2⟩

theorem genericResolve_eq_claim_policy (a b yr : ℕ) :
    genericResolve a b yr =
      (if 12 < a then
        mkJSDate (if yr < 100 then 2000 + (yr : Int) else (yr : Int)) ((b : Int) - 1) (a : Int)
      else if 12 < b then
        mkJSDate (if yr < 100 then 2000 + (yr : Int) else (yr : Int)) ((a : Int) - 1) (b : Int)
      else
        mkJSDate (if yr < 100 then 2000 + (yr : Int) else (yr : Int)) ((b : Int) - 1) (a : Int)) := by
  unfold genericResolve
  by_cases h1 : 12 < a
  · by_cases h2 : b ≤ 31
    · simp [h1, h2]
    · have h3 : ¬ (12 < b ∧ a ≤ 12) := by omega
      simp [h1, h2, h3]
  · by_cases h2 : 12 < b
    · have h3 : ¬ (12 < a ∧ b ≤ 31) := by omega
      have h4 : 12 < b ∧ a ≤ 12 := by omega
      simp [h1, h2, h3, h4]
    · have h3 : ¬ (12 < a ∧ b ≤ 31) := by omega
      have h4 : ¬ (12 < b ∧ a ≤ 12) := by omega
      simp [h1, h2, h3, h4]

/-- Counterexample to claim C7: `"05/13/2024"` has second component
13 > 12, so under the claimed resolution it would parse month-first to
May 13, 2024; the code's explicit two-digit-slash branch fires first and
parses it day-first as `new Date(2024, 12, 5)`, which rolls over to
January 5, 2025. -/
theorem c7_counterexample :
    parseDate "05/13/2024" = some ⟨2025, 1, 5⟩ ∧
    parseDate "05/13/2024" ≠ some ⟨2024, 5, 13⟩ := by
  exact ⟨by decide, by decide⟩

/-- Amended claim C7: for every trimmed date string matching
`D{1,2}(slash or dash)D{1,2}(slash or dash)Y{2,4}`, `parseDate` resolves
day/month order as the claim states — first component above 12 means it is
the day; otherwise a second component above 12 is the day (month-first);
otherwise day-first; two-digit years widened by 2000 — EXCEPT that a
string exactly of the two-digit/two-digit/four-digit slash form is always
parsed day-first (without the widening step, which cannot apply to its
four-digit year) by the earlier explicit DD/MM/YYYY branch.  In
particular "31/01/2024" parses to January 31, 2024. -/
theorem c7_amended_day_month_resolution (l : List Char) (a b yr : ℕ)
    (hg : matchGeneric l = some (a, b, yr)) :
    parseDateChars l = some
      (if (matchExplicit l).isSome then
        mkJSDate (yr : Int) ((b : Int) - 1) (a : Int)
      else if 12 < a then
        mkJSDate (if yr < 100 then 2000 + (yr : Int) else (yr : Int)) ((b : Int) - 1) (a : Int)
      else if 12 < b then
        mkJSDate (if yr < 100 then 2000 + (yr : Int) else (yr : Int)) ((a : Int) - 1) (b : Int)
      else
        mkJSDate (if yr < 100 then 2000 + (yr : Int) else (yr : Int)) ((b : Int) - 1) (a : Int)) := by
  have hexcel := matchGeneric_excelNum_none l a b yr hg
  have hiso := matchGeneric_isoTest_false l a b yr hg
  unfold parseDateChars
  rw [hexcel]
  unfold parseDateRest
  rw [hiso]
  simp only [Bool.false_eq_true, if_false]
  cases he : matchExplicit l with
  | some trip =>
    obtain ⟨dd, mmv⟩ := trip
    obtain ⟨mm, y4⟩ := mmv
    obtain ⟨hdd, hmm, hy⟩ := matchExplicit_generic_agree l dd mm y4 a b yr he hg
    subst hdd
    subst hmm
    subst hy
    simp
  | none =>
    rw [hg]
    simp only [Option.isSome_none, Bool.false_eq_true, if_false]
    rw [genericResolve_eq_claim_policy]

/-- Witness for the amended C7: the unambiguous "31/01/2024" (day 31)
resolves to January 31, 2024. -/
theorem c7_witness :
    matchGeneric (jsTrim "31/01/2024".data) = some (31, 1, 2024) ∧
    parseDate "31/01/2024" = some ⟨2024, 1, 31⟩ := by
  refine ⟨by decide, ?_⟩
  have h := c7_amended_day_month_resolution (jsTrim "31/01/2024".data) 31 1 2024 (by decide)
  unfold parseDate
  rw [if_neg (by decide), h]
  decide
